import Mathlib

/-!
Verification development for the FinShare OCR service
(`src/FinShare/ocr-service/main.py`).

The Python source is shallowly embedded: strings are `String`/`List Char`,
decimal amounts are `ℚ` (every amount literal occurring in the regexes is an
exact decimal), the regular expressions of `parse_receipt_text` are embedded
as executable matchers that reproduce Python `re` semantics (leftmost search,
greedy/lazy quantifiers with the backtracking the concrete patterns need),
and the `try/except` boundary of the `/scan` endpoint is embedded with
`Except`.
-/

namespace FinShare

/-- ASCII model of the Python `re` class `\d`. -/
def isDigitC (c : Char) : Bool := c.isDigit

/-- ASCII model of the Python `re` class `\s` (space, tab, newline, carriage
return, vertical tab, form feed). -/
def isSpaceC (c : Char) : Bool :=
  c = ' ' || c = '\t' || c = '\n' || c = '\x0d' || c = '\x0b' || c = '\x0c'

/-- ASCII model of the Python `re` class `\w`. -/
def isWordC (c : Char) : Bool := c.isAlpha || c.isDigit || c = '_'

/-- Case-insensitive literal match (the pattern is given in lowercase, as in
the source regexes compiled with `re.IGNORECASE`); returns the remainder of
the subject on success. -/
def matchLit : List Char → List Char → Option (List Char)
  | [], s => some s
  | _ :: _, [] => none
  | p :: ps, c :: cs => if c.toLower = p then matchLit ps cs else none

/-- Embedding of `re.search`: try the matcher at every start position, left
to right (including the position at the end of the subject), returning the
first success.  Source: every `re.search(...)` call in `main.py`. -/
def reSearch {α : Type} (m : List Char → Option α) : List Char → Option α
  | [] => m []
  | c :: rest =>
    match m (c :: rest) with
    | some r => some r
    | none => reSearch m rest

/-- Embedding of the amount tail `[:\s]*\$?(\d+\.?\d*)` shared by every
keyword/amount regex in `parse_receipt_text` (lines 195-241); returns the
captured group.  All quantifiers here are greedy and, because the follow
sets are disjoint, the greedy choice is the unique successful one, exactly
as in Python `re`. -/
def matchAmount (s : List Char) : Option (List Char) :=
  let s1 := s.dropWhile (fun c => c = ':' || isSpaceC c)
  let s2 := match s1 with
    | '$' :: r => r
    | r => r
  let ip := s2.takeWhile isDigitC
  if ip = [] then none
  else
    match s2.drop ip.length with
    | '.' :: r2 => some (ip ++ '.' :: r2.takeWhile isDigitC)
    | _ => some ip

/-- Embedding of a keyword/amount regex `w₁\s*w₂\s*…[:\s]*\$?(\d+\.?\d*)`
(case-insensitive): the literal words separated by `\s*`, then the amount
tail; returns the captured amount group. -/
def matchWordsAmount (ws : List (List Char)) (s : List Char) : Option (List Char) :=
  match ws with
  | [] => matchAmount s
  | w :: rest =>
    match matchLit w s with
    | none => none
    | some r => matchWordsAmount rest (if rest = [] then r else r.dropWhile isSpaceC)

/-- Value of a digit string, as read by Python `float` on the integer part. -/
def digitsVal (ds : List Char) : ℕ := ds.foldl (fun n c => 10 * n + (c.toNat - 48)) 0

/-- Model of Python `float(...)` restricted to the strings that can be
captured by the amount groups of `parse_receipt_text` — digits, optionally
followed by a dot and digits.  On any other shape it returns `none`,
modelling the `ValueError` branch of the source.  We prove below that the
`none` case never fires on an actual capture. -/
def parseFloat (s : List Char) : Option ℚ :=
  let ip := s.takeWhile isDigitC
  if ip = [] then none
  else
    match s.drop ip.length with
    | [] => some (mkRat (digitsVal ip) 1)
    | '.' :: fr =>
      if fr.all isDigitC then
        some (mkRat (digitsVal ip * 10 ^ fr.length + digitsVal fr) (10 ^ fr.length))
      else none
    | _ => none

/-- Embedding of the `for pattern in …: try: field = float(match.group(1));
break; except ValueError: pass` loops of `parse_receipt_text` (lines
195-241): patterns are tried in order; the first whose search succeeds and
whose capture parses sets the field; a parse failure falls through to the
next pattern. -/
def firstAmount (pats : List (List Char → Option (List Char))) (text : List Char) :
    Option ℚ :=
  match pats with
  | [] => none
  | p :: rest =>
    match reSearch p text with
    | some cap =>
      match parseFloat cap with
      | some v => some v
      | none => firstAmount rest text
    | none => firstAmount rest text

/-- Priority-ordered total patterns (lines 195-200): `total`, `grand total`,
`amount due`, `balance`, each with the shared amount tail. -/
def totalPats : List (List Char → Option (List Char)) :=
  [matchWordsAmount [("total").data],
   matchWordsAmount [("grand").data, ("total").data],
   matchWordsAmount [("amount").data, ("due").data],
   matchWordsAmount [("balance").data]]

/-- Subtotal pattern `sub\s*total[:\s]*\$?(\d+\.?\d*)` (line 212). -/
def subtotalPat : List Char → Option (List Char) :=
  matchWordsAmount [("sub").data, ("total").data]

/-- Priority-ordered tax patterns (lines 220-224): `tax`, `sales tax`, `vat`. -/
def taxPats : List (List Char → Option (List Char)) :=
  [matchWordsAmount [("tax").data],
   matchWordsAmount [("sales").data, ("tax").data],
   matchWordsAmount [("vat").data]]

/-- Tip pattern `tip[:\s]*\$?(\d+\.?\d*)` (line 236). -/
def tipPat : List Char → Option (List Char) :=
  matchWordsAmount [("tip").data]

/-- Embedding of Python `str.strip()`: remove leading and trailing
whitespace. -/
def pyStrip (s : List Char) : List Char :=
  ((s.dropWhile isSpaceC).reverse.dropWhile isSpaceC).reverse

/-- Embedding of the Python newline split used on line 165 — split on
newline characters; the empty string splits to `[[]]`, as in Python. -/
def splitNl : List Char → List (List Char)
  | [] => [[]]
  | c :: r =>
    if c = '\n' then [] :: splitNl r
    else
      match splitNl r with
      | h :: t => (c :: h) :: t
      | [] => [[c]]

/-- Embedding of lines preprocessing (lines 165-166): strip the text, split
on newlines, strip each line, and keep only the non-empty ones. -/
def linesOf (text : String) : List String :=
  (((splitNl (pyStrip text.data)).map (fun l => String.mk (pyStrip l))).filter
    (fun l => l ≠ ""))

/-- Matcher for the phone-number regex `\d{3}[-.\s]?\d{3}[-.\s]?\d{4}`
(line 173) at a fixed position: exactly-n digit blocks with a single optional
separator between them (the separator class and `\d` are disjoint, so the
greedy choice is the unique one). -/
def takeExact (p : Char → Bool) : ℕ → List Char → Option (List Char × List Char)
  | 0, s => some ([], s)
  | n + 1, c :: r =>
    if p c then (takeExact p n r).map (fun q => (c :: q.1, q.2)) else none
  | _ + 1, [] => none

/-- Optional separator `[-.\s]?` of the phone regex. -/
def sepOpt (s : List Char) : List Char :=
  match s with
  | c :: r => if c = '-' || c = '.' || isSpaceC c then r else s
  | [] => []

/-- Phone regex `\d{3}[-.\s]?\d{3}[-.\s]?\d{4}` at a fixed position. -/
def phoneAt (s : List Char) : Bool :=
  (do
    let r1 ← takeExact isDigitC 3 s
    let r2 ← takeExact isDigitC 3 (sepOpt r1.2)
    let _ ← takeExact isDigitC 4 (sepOpt r2.2)
    pure ()).isSome

/-- Street-suffix alternation `(st|street|ave|road|rd|blvd)` (nothing follows
it in the pattern, so a prefix match of any alternative suffices). -/
def streetSuffixAt (s : List Char) : Bool :=
  (matchLit (("st").data) s).isSome || (matchLit (("street").data) s).isSome ||
  (matchLit (("ave").data) s).isSome || (matchLit (("road").data) s).isSome ||
  (matchLit (("rd").data) s).isSome || (matchLit (("blvd").data) s).isSome

/-- Address regex `\d+\s+\w+\s+(st|street|ave|road|rd|blvd)` (line 174,
case-insensitive) at a fixed position; all the greedy `+` quantifiers here
have follow sets disjoint from their element class, so greedy matching is
exact Python semantics. -/
def addressAt (s : List Char) : Bool :=
  let ds := s.takeWhile isDigitC
  if ds = [] then false
  else
    let r1 := s.drop ds.length
    let sp1 := r1.takeWhile isSpaceC
    if sp1 = [] then false
    else
      let r2 := r1.drop sp1.length
      let ws := r2.takeWhile isWordC
      if ws = [] then false
      else
        let r3 := r2.drop ws.length
        let sp2 := r3.takeWhile isSpaceC
        if sp2 = [] then false
        else streetSuffixAt (r3.drop sp2.length)

/-- Python `str.isdigit()` on `line.replace(" ", "")` (ASCII model): true iff
the space-free text is non-empty and all digits. -/
def pyIsDigitNoSpaces (s : List Char) : Bool :=
  let t := s.filter (fun c => c ≠ ' ')
  t ≠ [] && t.all isDigitC

/-- Merchant acceptance test of lines 172-177: not a phone line, not an
address line, longer than 2 characters, and not solely digits/spaces. -/
def merchantOk (line : String) : Bool :=
  !(reSearch (fun s => if phoneAt s then some () else none) line.data).isSome &&
  !(reSearch (fun s => if addressAt s then some () else none) line.data).isSome &&
  decide (2 < line.length) && !pyIsDigitNoSpaces line.data

/-- Merchant extraction (lines 170-177): the first of the first five retained
lines passing `merchantOk`. -/
def merchantOf (lines : List String) : Option String :=
  (lines.take 5).find? merchantOk

/-- Greedy `\d{1,2}` with backtracking: the candidate (digits, rest) splits
in the order the Python engine tries them (two digits first, then one). -/
def d12 (s : List Char) : List (List Char × List Char) :=
  match s with
  | a :: b :: r =>
    if isDigitC a then
      if isDigitC b then [([a, b], r), ([a], b :: r)] else [([a], b :: r)]
    else []
  | [a] => if isDigitC a then [([a], [])] else []
  | [] => []

/-- Date separator class `[/ -]`. -/
def isSep (c : Char) : Bool := c = '/' || c = '-'

/-- Date pattern 1, `(\d{1,2}[/ -]\d{1,2}[/ -]\d{2,4})` (line 181), at a fixed
position; the trailing `\d{2,4}` has nothing after it, so it greedily takes
up to four digits and needs at least two. -/
def matchP1 (s : List Char) : Option (List Char) :=
  (d12 s).findSome? fun p =>
    match p.2 with
    | s1 :: r2 =>
      if isSep s1 then
        (d12 r2).findSome? fun q =>
          match q.2 with
          | s2 :: r4 =>
            if isSep s2 then
              let ys := (r4.takeWhile isDigitC).take 4
              if 2 ≤ ys.length then some (p.1 ++ s1 :: q.1 ++ s2 :: ys) else none
            else none
          | [] => none
      else none
    | [] => none

/-- Date pattern 2, `(\d{4}[/ -]\d{1,2}[/ -]\d{1,2})` (line 182), at a fixed
position. -/
def matchP2 (s : List Char) : Option (List Char) :=
  match takeExact isDigitC 4 s with
  | some (g1, s1 :: r1) =>
    if isSep s1 then
      (d12 r1).findSome? fun q =>
        match q.2 with
        | s2 :: r2 =>
          if isSep s2 then
            let ys := (r2.takeWhile isDigitC).take 2
            if 1 ≤ ys.length then some (g1 ++ s1 :: q.1 ++ s2 :: ys) else none
          else none
        | [] => none
    else none
  | _ => none

/-- Date pattern 3, `(\w{3}\s+\d{1,2},?\s+\d{4})` (line 183), at a fixed
position.  The optional comma, if present, must be taken (skipping it leaves
the comma in front of `\s+`, which fails), matching Python greediness. -/
def matchP3 (s : List Char) : Option (List Char) :=
  match takeExact isWordC 3 s with
  | some (g1, r1) =>
    let sp1 := r1.takeWhile isSpaceC
    if sp1 = [] then none
    else
      let r2 := r1.drop sp1.length
      (d12 r2).findSome? fun q =>
        let pr := match q.2 with
          | ',' :: rr => (([','] : List Char), rr)
          | rr => (([] : List Char), rr)
        let sp2 := pr.2.takeWhile isSpaceC
        if sp2 = [] then none
        else
          match takeExact isDigitC 4 (pr.2.drop sp2.length) with
          | some (g4, _) => some (g1 ++ sp1 ++ q.1 ++ pr.1 ++ sp2 ++ g4)
          | none => none
  | none => none

/-- Date pattern 4, `(\d{1,2}\s+\w{3}\s+\d{4})` (line 184), at a fixed
position. -/
def matchP4 (s : List Char) : Option (List Char) :=
  (d12 s).findSome? fun q =>
    let sp1 := q.2.takeWhile isSpaceC
    if sp1 = [] then none
    else
      let r2 := q.2.drop sp1.length
      match takeExact isWordC 3 r2 with
      | some (g2, r3) =>
        let sp2 := r3.takeWhile isSpaceC
        if sp2 = [] then none
        else
          match takeExact isDigitC 4 (r3.drop sp2.length) with
          | some (g4, _) => some (q.1 ++ sp1 ++ g2 ++ sp2 ++ g4)
          | none => none
      | none => none

/-- The four date pattern families, in source priority order (lines 180-185). -/
def datePats : List (List Char → Option (List Char)) :=
  [matchP1, matchP2, matchP3, matchP4]

/-- Date extraction (lines 187-191): the captured substring of the first
family whose search succeeds, stored verbatim. -/
def dateOf (text : List Char) : Option String :=
  (datePats.findSome? fun p => reSearch p text).map String.mk

/-- Keyword alternation of the item-line filter (line 249). -/
def kwList : List (List Char) :=
  [("total").data, ("tax").data, ("tip").data, ("subtotal").data,
   ("balance").data, ("change").data, ("cash").data, ("credit").data,
   ("visa").data, ("mastercard").data]

/-- Case-insensitive search for any of the filter keywords in a line. -/
def hasKeyword (line : List Char) : Bool :=
  (reSearch (fun s => kwList.findSome? (fun w => matchLit w s)) line).isSome

/-- Tail `\s+\$?(\d+\.\d{2})\s*$` of the item pattern (line 245) at a fixed
position: mandatory whitespace, optional dollar sign, an amount with exactly
two fraction digits, and only whitespace up to the end of the line; returns
the amount as an exact rational (`float(match.group(2))` never fails on this
shape). -/
def matchItemTail (s : List Char) : Option ℚ :=
  let sp := s.takeWhile isSpaceC
  if sp = [] then none
  else
    let r1 := s.drop sp.length
    let r2 := match r1 with
      | '$' :: r => r
      | r => r
    let ip := r2.takeWhile isDigitC
    if ip = [] then none
    else
      match r2.drop ip.length with
      | '.' :: d1 :: d2 :: rest =>
        if isDigitC d1 && isDigitC d2 && rest.all isSpaceC then
          some (mkRat (digitsVal ip * 100 + digitsVal [d1, d2]) 100)
        else none
      | _ => none

/-- Lazy-group loop of `re.match(r"^(.+?)\s+\$?(\d+\.\d{2})\s*$", line)`:
descriptions of length 1, 2, … are tried in order and the first whose
remainder matches the tail wins, exactly the order the lazy `(.+?)`
backtracks in. -/
def itemSplitGo : List Char → List Char → Option (List Char × ℚ)
  | _, [] => none
  | acc, c :: rest =>
    match matchItemTail rest with
    | some v => some (acc ++ [c], v)
    | none => itemSplitGo (acc ++ [c]) rest

/-- Item-line match (line 252): the lazy split applied to the whole line. -/
def matchItemLine (line : List Char) : Option (List Char × ℚ) :=
  itemSplitGo [] line

/-- Line-item extraction (lines 247-262): skip keyword lines, match the item
pattern, and accept the candidate only if the trimmed description is longer
than 2 characters and the price is strictly between 0 and 10000; accepted
items keep the source line order. -/
def itemsOf (lines : List String) : List (String × ℚ) :=
  lines.filterMap fun line =>
    if hasKeyword line.data then none
    else
      match matchItemLine line.data with
      | some (d, v) =>
        let nm := String.mk (pyStrip d)
        if 2 < nm.length ∧ 0 < v ∧ v < 10000 then some (nm, v) else none
      | none => none

/-- Result dictionary of `parse_receipt_text` (lines 155-163). -/
structure ParsedReceipt where
  merchant : Option String
  date : Option String
  total : Option ℚ
  subtotal : Option ℚ
  tax : Option ℚ
  tip : Option ℚ
  items : List (String × ℚ)
deriving DecidableEq

/-- Embedding of `parse_receipt_text` (lines 150-264). -/
def parse_receipt_text (text : String) : ParsedReceipt :=
  let lines := linesOf text
  { merchant := merchantOf lines
    date := dateOf text.data
    total := firstAmount totalPats text.data
    subtotal := firstAmount [subtotalPat] text.data
    tax := firstAmount taxPats text.data
    tip := firstAmount [tipPat] text.data
    items := itemsOf lines }

/-- Candidate angles of `deskew_image` (lines 111-116): from at most the
first 10 detected lines, the angle in degrees (theta converted to degrees,
minus 90 — the conversion is carried by the input, each detected line being
given as its (rho, theta-in-degrees) pair), keeping only angles of absolute
value below 45. -/
def deskewAngles (lines : List (ℚ × ℚ)) : List ℚ :=
  ((lines.take 10).map (fun l => l.2 - 90)).filter (fun a => |a| < 45)

/-- Embedding of `deskew_image` (lines 97-123).  The image type and the
rotation primitive (`PIL Image.rotate` with its angle, fill color and expand
arguments) are abstract; the Hough line detector is an external collaborator,
so its output — `none` when no line is detected, otherwise the detected
(rho, theta-in-degrees) pairs — is an input. -/
def deskew_image {Img : Type} (rotate : Img → ℚ → ℕ → Bool → Img) (image : Img)
    (houghLines : Option (List (ℚ × ℚ))) : Img :=
  match houghLines with
  | none => image
  | some lines =>
    let angles := deskewAngles lines
    if angles = [] then image
    else
      let avg := angles.sum / angles.length
      if mkRat 1 2 < |avg| then rotate image avg 255 true else image

/-- Confidence computation of `extract_text` (lines 137-144): the mean of the
per-token confidences that are strictly positive, divided by 100, with mean 0
when no token is strictly positive. -/
def scalarConfidence (confs : List ℤ) : ℚ :=
  let pos := confs.filter (fun c => 0 < c)
  (if pos = [] then 0 else (pos.sum : ℚ) / (pos.length : ℚ)) / 100

/-- Pydantic model `ReceiptItem` (lines 45-47). -/
structure ReceiptItem where
  description : String
  amount : Option ℚ
deriving DecidableEq

/-- Pydantic model `ReceiptData` (lines 49-58). -/
structure ReceiptData where
  merchant : Option String
  date : Option String
  total : Option ℚ
  subtotal : Option ℚ
  tax : Option ℚ
  tip : Option ℚ
  items : List ReceiptItem
  raw_text : String
  confidence : ℚ
deriving DecidableEq

/-- Pydantic model `OCRResponse` (lines 60-64). -/
structure OCRResponse where
  success : Bool
  job_id : String
  data : Option ReceiptData
  error : Option String
deriving DecidableEq

/-- Allowed upload content types (line 309). -/
def allowed_types : List String :=
  ["image/jpeg", "image/png", "image/webp", "image/jpg"]

/-- Embedding of the `/scan` endpoint `scan_receipt` (lines 298-365).  The
fresh `job_id` is an input; the fallible part of the pipeline — reading and
decoding the upload, preprocessing, deskewing and the Tesseract calls of
`extract_text` — is an input of type `Except String (String × List ℤ)`
carrying either the raised exception's message or the recognized text with
its per-token confidences.  The content-type check raises `HTTPException`
before the `try` block (modelled by `Except.error`); everything inside the
`try` is folded into the catch-all `except`, which returns the failure
response. -/
def scan_receipt (job_id : String) (content_type : String)
    (ocr : Except String (String × List ℤ)) : Except String OCRResponse :=
  if content_type ∈ allowed_types then
    match ocr with
    | Except.error e =>
      Except.ok { success := false, job_id := job_id, data := none, error := some e }
    | Except.ok (raw_text, confs) =>
      let parsed := parse_receipt_text raw_text
      Except.ok
        { success := true
          job_id := job_id
          data := some
            { merchant := parsed.merchant
              date := parsed.date
              total := parsed.total
              subtotal := parsed.subtotal
              tax := parsed.tax
              tip := parsed.tip
              items := parsed.items.map (fun it => ⟨it.1, some it.2⟩)
              raw_text := raw_text
              confidence := scalarConfidence confs }
          error := none }
  else Except.error "HTTP 400: Invalid file type"

/-- Apostrophe character, U+0027. -/
def apostrophe : String := String.mk [Char.ofNat 39]

/-- Merchant line of the spec's field-extractor test vector. -/
def joesDiner : String := "Joe" ++ apostrophe ++ "s Diner"

/-- Raw text of the spec's field-extractor test vector (spec section 8 and
claim C1). -/
def joeText : String :=
  joesDiner ++
    "\n123 Main St\n555-123-4567\nCoffee 3.50\nBagel 2.25\nSubtotal 5.75\nTax 0.50\nTotal: $6.25"

/-! ### Helper lemmas about the matchers -/

theorem takeWhile_append_of_all {α : Type} (p : α → Bool) {l : List α} (r : List α)
    (h : l.all p) : (l ++ r).takeWhile p = l ++ r.takeWhile p := by
  induction l with
  | nil => rfl
  | cons c cs ih =>
    simp only [List.all_cons, Bool.and_eq_true] at h
    simp [List.takeWhile_cons, h.1, ih h.2]

theorem takeWhile_eq_self_of_all {α : Type} (p : α → Bool) {l : List α}
    (h : l.all p) : l.takeWhile p = l :=
  List.takeWhile_eq_self_iff.mpr fun x hx => List.all_eq_true.mp h x hx

theorem reSearch_some {α : Type} {m : List Char → Option α} {s : List Char} {v : α}
    (h : reSearch m s = some v) : ∃ t, m t = some v := by
  induction s with
  | nil => exact ⟨[], h⟩
  | cons c rest ih =>
    simp only [reSearch] at h
    cases hm : m (c :: rest) with
    | some r => rw [hm] at h; exact ⟨c :: rest, hm.trans h⟩
    | none => rw [hm] at h; exact ih h

theorem reSearch_of_base {α : Type} {m : List Char → Option α} {s : List Char} {v : α}
    (h : m s = some v) : reSearch m s = some v := by
  cases s with
  | nil => exact h
  | cons c rest => simp only [reSearch, h]

theorem reSearch_append_none {α : Type} (m : List Char → Option α) (a b : List Char)
    (h : ∀ n, n < a.length → m (a.drop n ++ b) = none) :
    reSearch m (a ++ b) = reSearch m b := by
  induction a with
  | nil => rfl
  | cons c a ih =>
    have h0 : m ((c :: a) ++ b) = none := by simpa using h 0 (by simp)
    simp only [List.cons_append] at h0 ⊢
    rw [reSearch, h0]
    exact ih fun n hn => by simpa using h (n + 1) (by simpa using hn)

theorem parseFloat_isSome_of_matchAmount {s cap : List Char}
    (h : matchAmount s = some cap) : (parseFloat cap).isSome := by
  simp only [matchAmount] at h
  split at h
  · exact Option.noConfusion h
  next hip =>
    split at h
    next r2 heq =>
      injection h with h
      subst h
      have hipall := @List.all_takeWhile Char isDigitC
        (match (·.dropWhile (fun c => c = ':' || isSpaceC c)) s with
          | '$' :: r => r
          | r => r)
      have htw := @List.all_takeWhile Char isDigitC r2
      simp only [parseFloat]
      rw [takeWhile_append_of_all _ _ hipall]
      have hdot : (('.' :: r2.takeWhile isDigitC).takeWhile isDigitC) = [] := rfl
      rw [hdot, List.append_nil, if_neg hip, List.drop_left]
      simp [htw]
    next =>
      injection h with h
      subst h
      have hipall := @List.all_takeWhile Char isDigitC
        (match (·.dropWhile (fun c => c = ':' || isSpaceC c)) s with
          | '$' :: r => r
          | r => r)
      simp only [parseFloat]
      rw [takeWhile_eq_self_of_all _ hipall, if_neg hip, List.drop_length]
      rfl

theorem matchWordsAmount_capture {ws : List (List Char)} :
    ∀ {s cap : List Char}, matchWordsAmount ws s = some cap →
      ∃ t, matchAmount t = some cap := by
  induction ws with
  | nil => exact fun h => ⟨_, h⟩
  | cons w rest ih =>
    intro s cap h
    simp only [matchWordsAmount] at h
    cases hml : matchLit w s with
    | none => rw [hml] at h; exact Option.noConfusion h
    | some r => rw [hml] at h; exact ih h

/-- Every capture of a keyword/amount pattern parses as a float, so the
`except ValueError: pass` branches are unreachable. -/
theorem capture_parses (ws : List (List Char)) (s cap : List Char)
    (h : matchWordsAmount ws s = some cap) : (parseFloat cap).isSome := by
  obtain ⟨t, ht⟩ := matchWordsAmount_capture h
  exact parseFloat_isSome_of_matchAmount ht

theorem firstAmount_cons_some {p : List Char → Option (List Char)}
    {pats : List (List Char → Option (List Char))} {text cap : List Char} {v : ℚ}
    (hs : reSearch p text = some cap) (hv : parseFloat cap = some v) :
    firstAmount (p :: pats) text = some v := by
  simp only [firstAmount, hs, hv]

theorem firstAmount_eq_none_iff {pats : List (List Char → Option (List Char))}
    {text : List Char}
    (hp : ∀ p ∈ pats, ∀ s cap, p s = some cap → (parseFloat cap).isSome) :
    (firstAmount pats text = none ↔ ∀ p ∈ pats, reSearch p text = none) := by
  induction pats with
  | nil => simp [firstAmount]
  | cons p rest ih =>
    simp only [firstAmount]
    cases hs : reSearch p text with
    | none =>
      rw [ih fun q hq => hp q (List.mem_cons_of_mem _ hq)]
      constructor
      · intro hall q hq
        rcases List.mem_cons.mp hq with rfl | hq
        · exact hs
        · exact hall q hq
      · intro hall q hq
        exact hall q (List.mem_cons_of_mem _ hq)
    | some cap =>
      obtain ⟨t, ht⟩ := reSearch_some hs
      have hps := hp p (List.mem_cons_self _ _) t cap ht
      cases hpf : parseFloat cap with
      | none => rw [hpf] at hps; exact absurd hps (by simp)
      | some v =>
        simp only [hpf]
        constructor
        · exact fun h => Option.noConfusion h
        · intro hall
          have := hall p (List.mem_cons_self _ _)
          rw [hs] at this
          exact Option.noConfusion this

/-! ### Projection lemmas for `parse_receipt_text` -/

theorem parse_total (text : String) :
    (parse_receipt_text text).total = firstAmount totalPats text.data := rfl

theorem parse_subtotal (text : String) :
    (parse_receipt_text text).subtotal = firstAmount [subtotalPat] text.data := rfl

theorem parse_tax (text : String) :
    (parse_receipt_text text).tax = firstAmount taxPats text.data := rfl

theorem parse_tip (text : String) :
    (parse_receipt_text text).tip = firstAmount [tipPat] text.data := rfl

theorem parse_date (text : String) :
    (parse_receipt_text text).date = dateOf text.data := rfl

theorem parse_items (text : String) :
    (parse_receipt_text text).items = itemsOf (linesOf text) := rfl

/-- Concrete evaluation of the `total` pattern at its occurrence: on
`"Total: 10.00" ++ t` the pattern matches with capture `"10.00"` extended by
the digits `t` begins with (the greedy trailing `\d*` keeps consuming). -/
theorem matchTotal_concrete (t : List Char) :
    matchWordsAmount [("total").data] (("Total: 10.00").data ++ t) =
      some (("10.00").data ++ t.takeWhile isDigitC) := rfl

/-! ### Claim theorems -/

/-- Claim C1 (status: code bug).  Evaluating the field extractor on the
spec's test vector: merchant, subtotal, tax and the two ordered items come
out exactly as the spec demands, but `total` is 5.75 rather than the
specified 6.25, because the first total pattern `total[:\s]*\$?(\d+\.?\d*)`
already matches inside the line `Subtotal 5.75` (the keyword `total` is
matched without a word boundary). -/
theorem claim_C1_code_eval :
    parse_receipt_text joeText =
      { merchant := some joesDiner, date := none, total := some (mkRat 23 4),
        subtotal := some (mkRat 23 4), tax := some (mkRat 1 2), tip := none,
        items := [("Coffee", mkRat 7 2), ("Bagel", mkRat 9 4)] }
    ∧ (parse_receipt_text joeText).total ≠ some (mkRat 25 4) := by decide

/-- Claim C2, counterexample: the text `"Total: 10.005 Grand Total: 12.00"`
contains the substring `"Total: 10.00"`, later contains
`"Grand Total: 12.00"`, and has no earlier occurrence of any total-keyword
pattern, yet the extractor sets `total = 10.005` (the greedy `\d*` keeps
consuming the digit after `"10.00"`), not `10.00`. -/
theorem claim_C2_counterexample :
    (parse_receipt_text ("Total: 10.005 Grand Total: 12.00")).total = some (mkRat 2001 200)
    ∧ (parse_receipt_text ("Total: 10.005 Grand Total: 12.00")).total ≠ some 10 := by
  decide

/-- Claim C2, amended: for every text of the form
`A ++ "Total: 10.00" ++ B` in which the `total` pattern matches at no
position strictly before the occurrence, the occurrence is not immediately
followed by a digit, and `B` later contains `"Grand Total: 12.00"`, the
extractor sets `total = 10.00`: the `total` pattern is tried before the
`grand total` pattern and its first match in the text wins. -/
theorem claim_C2_amended (A B : String)
    (hA : ∀ n, n < A.data.length →
      matchWordsAmount [("total").data]
        (A.data.drop n ++ (("Total: 10.00" : String) ++ B).data) = none)
    (hB : B.data.takeWhile isDigitC = [])
    (_hG : ∃ B1 B2 : String, B = B1 ++ "Grand Total: 12.00" ++ B2) :
    (parse_receipt_text (A ++ "Total: 10.00" ++ B)).total = some 10 := by
  rw [parse_total]
  have hdata : (A ++ "Total: 10.00" ++ B).data
      = A.data ++ (("Total: 10.00").data ++ B.data) := by
    simp [String.data_append]
  rw [hdata]
  have hsearch : reSearch (matchWordsAmount [("total").data])
      (A.data ++ (("Total: 10.00").data ++ B.data))
      = some (("10.00").data) := by
    rw [reSearch_append_none _ _ _ (fun n hn => by
      have hn' := hA n hn
      rwa [String.data_append] at hn')]
    have hc := matchTotal_concrete B.data
    rw [hB, List.append_nil] at hc
    exact reSearch_of_base hc
  exact firstAmount_cons_some hsearch (by decide)

theorem claim_C2_amended_witness :
    (parse_receipt_text (("Receipt") ++ "Total: 10.00" ++ (" Grand Total: 12.00"))).total
      = some 10 :=
  claim_C2_amended ("Receipt") (" Grand Total: 12.00") (by decide) (by decide)
    ⟨" ", "", by decide⟩

/-- Unfolding of the date priority chain: the first of the four family
searches to succeed provides the verbatim capture. -/
theorem dateOf_eq (text : List Char) :
    dateOf text =
      (match reSearch matchP1 text with
        | some c => some (String.mk c)
        | none =>
          match reSearch matchP2 text with
          | some c => some (String.mk c)
          | none =>
            match reSearch matchP3 text with
            | some c => some (String.mk c)
            | none =>
              match reSearch matchP4 text with
              | some c => some (String.mk c)
              | none => none) := by
  rw [dateOf, datePats]
  cases h1 : reSearch matchP1 text <;> cases h2 : reSearch matchP2 text <;>
    cases h3 : reSearch matchP3 text <;> cases h4 : reSearch matchP4 text <;>
    simp [List.findSome?_cons, h1, h2, h3, h4]

/-- Claim C6 (confirmed): the date field is the captured substring of the
first of the four date pattern families, tried in the fixed source order,
that matches anywhere in the text; the capture is stored verbatim with no
calendar validation (the calendrically invalid `02/30/2024` is stored
as-is), and the date is unset exactly when no family matches. -/
theorem claim_C6 (text : String) :
    ((parse_receipt_text text).date = none ↔ ∀ p ∈ datePats, reSearch p text.data = none)
    ∧ (∀ cap, reSearch matchP1 text.data = some cap →
        (parse_receipt_text text).date = some (String.mk cap))
    ∧ (∀ cap, reSearch matchP1 text.data = none → reSearch matchP2 text.data = some cap →
        (parse_receipt_text text).date = some (String.mk cap))
    ∧ (∀ cap, reSearch matchP1 text.data = none → reSearch matchP2 text.data = none →
        reSearch matchP3 text.data = some cap →
        (parse_receipt_text text).date = some (String.mk cap))
    ∧ (∀ cap, reSearch matchP1 text.data = none → reSearch matchP2 text.data = none →
        reSearch matchP3 text.data = none → reSearch matchP4 text.data = some cap →
        (parse_receipt_text text).date = some (String.mk cap))
    ∧ (parse_receipt_text ("Paid on 02/30/2024")).date = some ("02/30/2024") := by
  refine ⟨?_, ?_, ?_, ?_, ?_, by decide⟩
  · rw [parse_date, dateOf_eq]
    cases h1 : reSearch matchP1 text.data <;> cases h2 : reSearch matchP2 text.data <;>
      cases h3 : reSearch matchP3 text.data <;> cases h4 : reSearch matchP4 text.data <;>
      simp [datePats, h1, h2, h3, h4]
  · intro cap h1
    rw [parse_date, dateOf_eq, h1]
  · intro cap h1 h2
    rw [parse_date, dateOf_eq, h1, h2]
  · intro cap h1 h2 h3
    rw [parse_date, dateOf_eq, h1, h2, h3]
  · intro cap h1 h2 h3 h4
    rw [parse_date, dateOf_eq, h1, h2, h3, h4]

theorem claim_C6_witness :
    (parse_receipt_text ("Paid on 02/30/2024")).date
      = some (String.mk (("02/30/2024").data)) :=
  (claim_C6 ("Paid on 02/30/2024")).2.1 (("02/30/2024").data) (by decide)

/-- Claim C9 (confirmed): every string captured by the amount group
`(\d+\.?\d*)` of a keyword/amount pattern parses successfully as a decimal,
so the `ValueError` fallback branches are unreachable and each of the total,
subtotal, tax and tip fields is set exactly when one of its patterns
matches. -/
theorem claim_C9 (text : String) :
    ((parse_receipt_text text).total = none ↔ ∀ p ∈ totalPats, reSearch p text.data = none)
    ∧ ((parse_receipt_text text).subtotal = none ↔ reSearch subtotalPat text.data = none)
    ∧ ((parse_receipt_text text).tax = none ↔ ∀ p ∈ taxPats, reSearch p text.data = none)
    ∧ ((parse_receipt_text text).tip = none ↔ reSearch tipPat text.data = none)
    ∧ (∀ ws s cap, matchWordsAmount ws s = some cap → (parseFloat cap).isSome) := by
  have htot : ∀ p ∈ totalPats, ∀ s cap, p s = some cap → (parseFloat cap).isSome := by
    intro p hp
    simp only [totalPats, List.mem_cons, List.not_mem_nil, or_false] at hp
    rcases hp with rfl | rfl | rfl | rfl <;> exact fun s cap h => capture_parses _ s cap h
  have hsub : ∀ p ∈ [subtotalPat], ∀ s cap, p s = some cap → (parseFloat cap).isSome := by
    intro p hp
    simp only [List.mem_singleton] at hp
    subst hp
    exact fun s cap h => capture_parses _ s cap h
  have htax : ∀ p ∈ taxPats, ∀ s cap, p s = some cap → (parseFloat cap).isSome := by
    intro p hp
    simp only [taxPats, List.mem_cons, List.not_mem_nil, or_false] at hp
    rcases hp with rfl | rfl | rfl <;> exact fun s cap h => capture_parses _ s cap h
  have htip : ∀ p ∈ [tipPat], ∀ s cap, p s = some cap → (parseFloat cap).isSome := by
    intro p hp
    simp only [List.mem_singleton] at hp
    subst hp
    exact fun s cap h => capture_parses _ s cap h
  refine ⟨?_, ?_, ?_, ?_, fun ws s cap h => capture_parses ws s cap h⟩
  · rw [parse_total]
    exact firstAmount_eq_none_iff htot
  · rw [parse_subtotal, firstAmount_eq_none_iff hsub]
    simp
  · rw [parse_tax]
    exact firstAmount_eq_none_iff htax
  · rw [parse_tip, firstAmount_eq_none_iff htip]
    simp

theorem claim_C9_witness : (parse_receipt_text ("no amounts here")).tip = none :=
  ((claim_C9 ("no amounts here")).2.2.2.1).mpr (by decide)

/-- Bounds for the confidence computation: with every per-token confidence
at most 100, the scalar confidence lies in the unit interval. -/
theorem scalarConfidence_bounds (confs : List ℤ) (h : ∀ c ∈ confs, c ≤ 100) :
    0 ≤ scalarConfidence confs ∧ scalarConfidence confs ≤ 1 := by
  have hmem : ∀ x ∈ confs.filter (fun c => 0 < c), 0 < x ∧ x ≤ 100 := by
    intro x hx
    rw [List.mem_filter] at hx
    exact ⟨by simpa using hx.2, h x hx.1⟩
  simp only [scalarConfidence]
  by_cases hnil : confs.filter (fun c => 0 < c) = []
  · rw [if_pos hnil]
    norm_num
  · rw [if_neg hnil]
    have hlen : (0 : ℚ) < ((confs.filter (fun c => 0 < c)).length : ℚ) := by
      exact_mod_cast List.length_pos.mpr hnil
    have hsum0 : (0 : ℤ) ≤ (confs.filter (fun c => 0 < c)).sum :=
      List.sum_nonneg fun x hx => (hmem x hx).1.le
    have hsum100 : (confs.filter (fun c => 0 < c)).sum
        ≤ ((confs.filter (fun c => 0 < c)).length : ℤ) * 100 := by
      have hs := List.sum_le_card_nsmul (confs.filter (fun c => 0 < c)) 100
        fun x hx => (hmem x hx).2
      simpa [nsmul_eq_mul] using hs
    constructor
    · apply div_nonneg _ (by norm_num)
      exact div_nonneg (by exact_mod_cast hsum0) hlen.le
    · rw [div_le_one (by norm_num : (0 : ℚ) < 100), div_le_iff₀ hlen]
      calc ((confs.filter (fun c => 0 < c)).sum : ℚ)
          ≤ ((confs.filter (fun c => 0 < c)).length : ℚ) * 100 := by exact_mod_cast hsum100
        _ = 100 * ((confs.filter (fun c => 0 < c)).length : ℚ) := mul_comm _ _

/-- Value of the `/scan` endpoint when the pipeline raises: the catch-all
`except` returns the failure response with no data. -/
theorem scan_receipt_error (job_id content_type e : String)
    (h : content_type ∈ allowed_types) :
    scan_receipt job_id content_type (Except.error e)
      = Except.ok { success := false, job_id := job_id, data := none, error := some e } := by
  simp only [scan_receipt, if_pos h]

/-- Value of the `/scan` endpoint when the pipeline succeeds: the success
response assembled from the parse result and the confidence. -/
theorem scan_receipt_ok (job_id content_type raw : String) (confs : List ℤ)
    (h : content_type ∈ allowed_types) :
    scan_receipt job_id content_type (Except.ok (raw, confs)) = Except.ok
      { success := true
        job_id := job_id
        data := some
          { merchant := (parse_receipt_text raw).merchant
            date := (parse_receipt_text raw).date
            total := (parse_receipt_text raw).total
            subtotal := (parse_receipt_text raw).subtotal
            tax := (parse_receipt_text raw).tax
            tip := (parse_receipt_text raw).tip
            items := (parse_receipt_text raw).items.map (fun it => ⟨it.1, some it.2⟩)
            raw_text := raw
            confidence := scalarConfidence confs }
        error := none } := by
  simp only [scan_receipt, if_pos h]

/-- Claim C3 (confirmed): the OCR adapter's scalar confidence is the
arithmetic mean of the strictly positive per-token values divided by 100,
is 0 when no value is positive, and for per-token values in `[-1, 100]` it
lies in `[0, 1]`; hence the confidence carried by every success response
lies in `[0, 1]`. -/
theorem claim_C3 (confs : List ℤ) (h : ∀ c ∈ confs, -1 ≤ c ∧ c ≤ 100) :
    (0 ≤ scalarConfidence confs ∧ scalarConfidence confs ≤ 1)
    ∧ ((∀ c ∈ confs, c ≤ 0) → scalarConfidence confs = 0)
    ∧ (confs.filter (fun c => 0 < c) ≠ [] →
        scalarConfidence confs =
          ((confs.filter (fun c => 0 < c)).sum : ℚ)
            / ((confs.filter (fun c => 0 < c)).length : ℚ) / 100)
    ∧ (∀ job_id raw : String, ∀ resp : OCRResponse, ∀ d : ReceiptData,
        scan_receipt job_id ("image/png") (Except.ok (raw, confs)) = Except.ok resp →
        resp.data = some d → 0 ≤ d.confidence ∧ d.confidence ≤ 1) := by
  have hb := scalarConfidence_bounds confs fun c hc => (h c hc).2
  refine ⟨hb, ?_, ?_, ?_⟩
  · intro hz
    have hfil : confs.filter (fun c => 0 < c) = [] := by
      rw [List.filter_eq_nil_iff]
      intro a ha
      simp only [decide_eq_true_eq]
      exact not_lt.mpr (hz a ha)
    simp [scalarConfidence, hfil]
  · intro hne
    simp only [scalarConfidence]
    rw [if_neg hne]
  · intro job_id raw resp d hscan hdata
    rw [scan_receipt_ok job_id ("image/png") raw confs (by decide)] at hscan
    injection hscan with hscan
    subst hscan
    have hd := Option.some.inj hdata
    subst hd
    exact hb

theorem claim_C3_witness :
    (0 ≤ scalarConfidence [50] ∧ scalarConfidence [50] ≤ 1)
    ∧ ((∀ c ∈ [(50 : ℤ)], c ≤ 0) → scalarConfidence [50] = 0)
    ∧ (([(50 : ℤ)].filter (fun c => 0 < c) ≠ []) →
        scalarConfidence [50] =
          (([(50 : ℤ)].filter (fun c => 0 < c)).sum : ℚ)
            / (([(50 : ℤ)].filter (fun c => 0 < c)).length : ℚ) / 100)
    ∧ (∀ job_id raw : String, ∀ resp : OCRResponse, ∀ d : ReceiptData,
        scan_receipt job_id ("image/png") (Except.ok (raw, [(50 : ℤ)])) = Except.ok resp →
        resp.data = some d → 0 ≤ d.confidence ∧ d.confidence ≤ 1) :=
  claim_C3 [50] (by decide)

/-- Claim C4 (confirmed): the skew corrector returns its input unchanged
when no line is detected, when no candidate angle (from at most the first 10
lines, with absolute value below 45 degrees) survives, or when the mean
surviving angle has absolute value at most 0.5 degrees; it rotates — with
canvas expansion and white (255) border fill — exactly when the mean angle
exceeds 0.5 degrees in absolute value. -/
theorem claim_C4 {Img : Type} (rotate : Img → ℚ → ℕ → Bool → Img) (image : Img)
    (houghLines : Option (List (ℚ × ℚ))) :
    (houghLines = none → deskew_image rotate image houghLines = image)
    ∧ (∀ lines, houghLines = some lines → deskewAngles lines = [] →
        deskew_image rotate image houghLines = image)
    ∧ (∀ lines, houghLines = some lines → deskewAngles lines ≠ [] →
        |(deskewAngles lines).sum / ((deskewAngles lines).length : ℚ)| ≤ mkRat 1 2 →
        deskew_image rotate image houghLines = image)
    ∧ (∀ lines, houghLines = some lines → deskewAngles lines ≠ [] →
        mkRat 1 2 < |(deskewAngles lines).sum / ((deskewAngles lines).length : ℚ)| →
        deskew_image rotate image houghLines
          = rotate image ((deskewAngles lines).sum / ((deskewAngles lines).length : ℚ))
              255 true) := by
  refine ⟨?_, ?_, ?_, ?_⟩
  · rintro rfl
    rfl
  · rintro lines rfl hnil
    simp [deskew_image, hnil]
  · rintro lines rfl hnil hle
    simp [deskew_image, hnil, not_lt.mpr hle]
  · rintro lines rfl hnil hlt
    simp [deskew_image, hnil, hlt]

theorem claim_C4_witness :
    deskew_image (fun (i : ℕ) _ _ _ => i + 1) 0 none = 0 :=
  (claim_C4 (fun (i : ℕ) _ _ _ => i + 1) 0 none).1 rfl

/-- Claim C7 (confirmed): for every upload with an allowed content type, the
scan boundary returns a well-formed response rather than raising: the
response carries the request's job id, and it is either a success response
with data attached and no error, or — whenever the pipeline raised — a
failure response carrying the exception message and no receipt data. -/
theorem claim_C7 (job_id content_type : String)
    (ocr : Except String (String × List ℤ)) (h : content_type ∈ allowed_types) :
    ∃ resp : OCRResponse,
      scan_receipt job_id content_type ocr = Except.ok resp
      ∧ resp.job_id = job_id
      ∧ ((resp.success = true ∧ resp.error = none ∧ ∃ dta, resp.data = some dta)
        ∨ (resp.success = false ∧ resp.data = none
            ∧ ∃ e, ocr = Except.error e ∧ resp.error = some e)) := by
  cases ocr with
  | error e =>
    exact ⟨_, scan_receipt_error job_id content_type e h, rfl,
      Or.inr ⟨rfl, rfl, e, rfl, rfl⟩⟩
  | ok p =>
    obtain ⟨raw, confs⟩ := p
    exact ⟨_, scan_receipt_ok job_id content_type raw confs h, rfl,
      Or.inl ⟨rfl, rfl, _, rfl⟩⟩

theorem claim_C7_witness :
    ∃ resp : OCRResponse,
      scan_receipt ("job-1") ("image/png") (Except.error ("boom")) = Except.ok resp
      ∧ resp.job_id = "job-1"
      ∧ ((resp.success = true ∧ resp.error = none ∧ ∃ dta, resp.data = some dta)
        ∨ (resp.success = false ∧ resp.data = none
            ∧ ∃ e, (Except.error e : Except String (String × List ℤ))
                = Except.error ("boom") ∧ resp.error = some e)) := by
  have hc := claim_C7 ("job-1") ("image/png") (Except.error ("boom")) (by decide)
  obtain ⟨resp, h1, h2, h3⟩ := hc
  refine ⟨resp, h1, h2, ?_⟩
  rcases h3 with h3 | ⟨hs, hd, e, he, herr⟩
  · exact Or.inl h3
  · exact Or.inr ⟨hs, hd, e, by rw [he], herr⟩

/-- Claim C8 (confirmed): a scan whose recognized text is empty is a
success, not a failure: extraction on the empty string leaves every
structured field unset and the item list empty, and the response record
carries `raw_text = ""` and confidence 0 (no token has positive
confidence). -/
theorem claim_C8 (job_id : String) (confs : List ℤ) (h : ∀ c ∈ confs, c ≤ 0) :
    scan_receipt job_id ("image/png") (Except.ok ("", confs)) =
      Except.ok
        { success := true
          job_id := job_id
          data := some
            { merchant := none, date := none, total := none, subtotal := none,
              tax := none, tip := none, items := [], raw_text := "", confidence := 0 }
          error := none } := by
  rw [scan_receipt_ok job_id ("image/png") ("") confs (by decide)]
  have hparse : parse_receipt_text ("") = ⟨none, none, none, none, none, none, []⟩ := by
    decide
  have hfil : confs.filter (fun c => 0 < c) = [] := by
    rw [List.filter_eq_nil_iff]
    intro a ha
    simp only [decide_eq_true_eq]
    exact not_lt.mpr (h a ha)
  have hconf : scalarConfidence confs = 0 := by simp [scalarConfidence, hfil]
  rw [hparse, hconf]
  rfl

theorem claim_C8_witness :
    scan_receipt ("job-2") ("image/png") (Except.ok ("", [(-1 : ℤ), 0])) =
      Except.ok
        { success := true
          job_id := "job-2"
          data := some
            { merchant := none, date := none, total := none, subtotal := none,
              tax := none, tip := none, items := [], raw_text := "", confidence := 0 }
          error := none } :=
  claim_C8 ("job-2") [(-1 : ℤ), 0] (by decide)

theorem itemsOf_append (l1 l2 : List String) :
    itemsOf (l1 ++ l2) = itemsOf l1 ++ itemsOf l2 := by
  simp [itemsOf, List.filterMap_append]

/-- Value of the item extraction on a single keyword-free line whose item
pattern matches: the candidate is kept exactly when the guard of line 258
holds. -/
theorem itemsOf_singleton (line : String) (d : List Char) (a : ℚ)
    (hkw : hasKeyword line.data = false)
    (hm : matchItemLine line.data = some (d, a)) :
    itemsOf [line] =
      if 2 < (String.mk (pyStrip d)).length ∧ 0 < a ∧ a < 10000
        then [(String.mk (pyStrip d), a)] else [] := by
  by_cases hg : 2 < (String.mk (pyStrip d)).length ∧ 0 < a ∧ a < 10000
  · simp only [itemsOf, List.filterMap_cons, List.filterMap_nil, hkw, hm,
      Bool.false_eq_true, if_false, if_pos hg]
  · simp only [itemsOf, List.filterMap_cons, List.filterMap_nil, hkw, hm,
      Bool.false_eq_true, if_false, if_neg hg]

/-- Claim C5 (confirmed): for every retained keyword-free line whose
trailing-amount pattern matches, the candidate is appended to the item list
if and only if the trimmed description is longer than 2 characters and the
amount lies strictly between 0 and 10000, appended at the end so that source
line order is preserved; in particular the candidate
`("Receipt #", 15000.00)` is rejected (amount bound) and `("AB", 3.00)` is
rejected (description length). -/
theorem claim_C5 (lines : List String) (line : String) (d : List Char) (a : ℚ)
    (hkw : hasKeyword line.data = false)
    (hm : matchItemLine line.data = some (d, a)) :
    ((2 < (String.mk (pyStrip d)).length ∧ 0 < a ∧ a < 10000 →
        itemsOf (lines ++ [line]) = itemsOf lines ++ [(String.mk (pyStrip d), a)])
      ∧ (¬ (2 < (String.mk (pyStrip d)).length ∧ 0 < a ∧ a < 10000) →
        itemsOf (lines ++ [line]) = itemsOf lines))
    ∧ (matchItemLine (("Receipt # 15000.00").data) = some ((("Receipt #").data), mkRat 15000 1)
        ∧ ¬ (mkRat 15000 1 < 10000)
        ∧ itemsOf [("Receipt # 15000.00")] = [])
    ∧ (matchItemLine (("AB 3.00").data) = some ((("AB").data), mkRat 3 1)
        ∧ ¬ (2 < (String.mk (pyStrip (("AB").data))).length)
        ∧ itemsOf [("AB 3.00")] = []) := by
  refine ⟨⟨?_, ?_⟩, by decide, by decide⟩
  · intro hg
    rw [itemsOf_append, itemsOf_singleton line d a hkw hm, if_pos hg]
  · intro hg
    rw [itemsOf_append, itemsOf_singleton line d a hkw hm, if_neg hg, List.append_nil]

theorem claim_C5_witness :
    itemsOf ([] ++ [("Coffee 3.50")])
      = itemsOf [] ++ [(String.mk (pyStrip (("Coffee").data)), mkRat 7 2)] :=
  (claim_C5 [] ("Coffee 3.50") (("Coffee").data) (mkRat 7 2) (by decide)
    (by decide)).1.1 (by decide)

/-- Claim C10 (confirmed): the third date family `(\w{3}\s+\d{1,2},?\s+\d{4})`
accepts digits in the month position: the text `"123 45, 2024"` contains no
alphabetic character and is matched by neither numeric family, yet the date
field is set to the purely numeric substring `"123 45, 2024"`. -/
theorem claim_C10 :
    (parse_receipt_text ("123 45, 2024")).date = some ("123 45, 2024")
    ∧ (("123 45, 2024").data.all fun c => !c.isAlpha)
    ∧ reSearch matchP1 (("123 45, 2024").data) = none
    ∧ reSearch matchP2 (("123 45, 2024").data) = none := by decide

end FinShare
